import Mathlib

/-!
# Verification of the ByBit P2P / repository-sync data source

Shallow embedding of `src/SubjectiveByBitP2PDataSource.py`:

* `get_bybit_p2p_opportunities` — the module-level function querying the
  Bybit P2P API (HTTP effects are modelled by an explicit `HttpResponse`
  oracle value standing for the outcome of `requests.get` + `json()`).
* `SubjectiveByBitP2PDataSource.fetch` — the repository-sync task.  Stateful
  and effectful code is embedded by explicit state passing: the instance
  counters form `DSState`, the filesystem view that the code consults
  (`os.path.exists`, `os.listdir`) forms `FS`, the outcomes of the external
  collaborators (repository listing, `git clone` subprocess, `os.makedirs`,
  wall-clock timing, progress-callback registration) form an `Env` oracle,
  and every observable side effect (log line, clone invocation, directory
  creation, progress-callback invocation) is recorded in an `Event` trace.
-/

namespace ByBitP2P

/-! ## Part 1: `get_bybit_p2p_opportunities` -/

/-- The JSON body returned by the Bybit endpoint, as consumed by the code:
`data.get("ret_code")`, `data.get("ret_msg")`, and
`data.get("result", \x7b\x7d).get("items", [])`.  Items are opaque payloads. -/
structure ApiData where
  retCode : Option Int
  retMsg : Option String
  items : List String
  deriving DecidableEq, Repr

/-- Outcome of `requests.get(url, params=params)` followed by
`response.raise_for_status()` and `response.json()`.  `failure` covers every
`requests.exceptions.RequestException` (connection errors, HTTP error status
raised by `raise_for_status`, JSON decode errors). -/
inductive HttpResponse where
  | failure (msg : String)
  | success (data : ApiData)
  deriving DecidableEq, Repr

/-- Embedding of `get_bybit_p2p_opportunities` (src lines 4–42): on a
request exception it prints and returns `[]`; on a response with
`ret_code == 0` it returns the items list; otherwise it prints the error
message and returns `[]`. -/
def get_bybit_p2p_opportunities (resp : HttpResponse) : List String :=
  match resp with
  | .failure _ => []
  | .success data =>
      if data.retCode = some 0 then data.items else []

/-! ## Part 2: the repository-sync data source

### Data model -/

/-- The instance counters of `SubjectiveByBitP2PDataSource`
(`__init__`, src lines 87–90). -/
structure DSState where
  total_items : Nat
  processed_items : Nat
  total_processing_time : ℚ
  fetch_completed : Bool
  deriving DecidableEq, Repr

/-- The state set by `__init__`: a freshly constructed instance. -/
def initState : DSState :=
  { total_items := 0
    processed_items := 0
    total_processing_time := 0
    fetch_completed := false }

/-- The filesystem view consulted by `fetch`: `existing` are the paths for
which `os.path.exists` is true, `populated` those whose `os.listdir` is
non-empty. -/
structure FS where
  existing : List String
  populated : List String
  deriving DecidableEq, Repr

/-- `os.path.exists p`. -/
def FS.pathExists (fs : FS) (p : String) : Bool :=
  fs.existing.contains p

/-- Truthiness of `os.listdir p` (the directory has at least one entry). -/
def FS.dirNonempty (fs : FS) (p : String) : Bool :=
  fs.populated.contains p

/-- Split a character list at every occurrence of `c` (the segments of a
`/`-separated path). -/
def splitOnChar (c : Char) : List Char → List (List Char)
  | [] => [[]]
  | ch :: rest =>
      match splitOnChar c rest with
      | [] => [[]]
      | cur :: parts =>
          if ch = c then [] :: cur :: parts else (ch :: cur) :: parts

/-- The segments of a path. -/
def pathParts (p : String) : List String :=
  (splitOnChar '/' p.data).map List.asString

/-- `[a, b, c] ↦ [a, a/b, a/b/c]`. -/
def prefixJoins : List String → List String
  | [] => []
  | x :: rest => x :: (prefixJoins rest).map (fun s => x ++ "/" ++ s)

/-- All ancestors of a `/`-separated path, the path itself included:
the directories guaranteed to exist after `os.makedirs p`. -/
def pathAncestors (p : String) : List String :=
  prefixJoins (pathParts p)

/-- Effect of a successful `os.makedirs p`: `p` and all missing parent
segments come to exist. -/
def FS.makedirs (fs : FS) (p : String) : FS :=
  { fs with existing := pathAncestors p ++ fs.existing }

/-- Effect of a successful `git clone url dest`: `dest` exists and is
non-empty afterwards (a failed clone leaves no populated destination). -/
def FS.cloneInto (fs : FS) (dest : String) : FS :=
  { existing := dest :: fs.existing
    populated := dest :: fs.populated }

/-- The task parameters read from `self.params` by `fetch`
(src lines 94–97). -/
structure Params where
  region : String
  target_directory : String
  access_key : String
  secret_key : String
  deriving DecidableEq, Repr

/-- Oracle for the external collaborators of one `fetch` run:
the repository listing (`_get_repositories`), the per-repository outcome of
the `git clone` subprocess (`none` = exit 0, `some stderr` =
`CalledProcessError` with captured stderr), whether `os.makedirs` raises,
the wall-clock duration of each loop step, and the progress-callback
plumbing inherited from the base class. -/
structure Env where
  repos : List String
  cloneError : String → Option String
  makedirsError : Option String
  stepTime : Nat → ℚ
  hasCallback : Bool
  taskName : String

/-- Observable side effects of a run, in order of occurrence. -/
inductive Event where
  | log (msg : String) (level : String)
  | makedirsCall (path : String)
  | cloneCall (url : String) (dest : String)
  | progressCall (name : String) (total : Nat) (processed : Nat) (est : ℚ)
  deriving DecidableEq, Repr

/-! ### Operations -/

/-- `clone_url` as computed at src line 112. -/
def cloneUrl (region repo : String) : String :=
  "https://git-codecommit." ++ region ++ ".amazonaws.com/v1/repos/" ++ repo

/-- `dest_path = os.path.join(target_directory, repo_name)` (src line 113). -/
def destPath (target repo : String) : String :=
  target ++ "/" ++ repo

def skipMsg (repo : String) : String :=
  "Repository " ++ repo ++ " already exists. Skipping clone."

def cloningMsg (region repo : String) : String :=
  "Cloning repository " ++ repo ++ " from " ++ cloneUrl region repo ++ " ..."

def cloneErrMsg (repo stderr : String) : String :=
  "Error cloning " ++ repo ++ ": " ++ stderr

def startMsg (region target : String) : String :=
  "Starting AWS CodeCommit fetch for region \x27" ++ region ++ "\x27 into \x27"
    ++ target ++ "\x27."

def createdMsg (target : String) : String :=
  "Created directory " ++ target

def foundMsg (n : Nat) : String :=
  "Found " ++ toString n ++ " repositories."

def doneMsg : String :=
  "AWS CodeCommit fetch process completed."

/-- Modelled from the spec: `estimated_remaining_time` of the base
data-source class (`subjective_abstract_data_source_package`, not in src/) —
"derived from average per-item time so far multiplied by remaining item
count". -/
def estimated_remaining_time (st : DSState) : ℚ :=
  (st.total_processing_time / (st.processed_items : ℚ))
    * ((st.total_items : ℚ) - (st.processed_items : ℚ))

/-- The skip-or-clone part of one loop iteration (src lines 112–122):
either the destination exists and is non-empty (skip + log), or a clone is
invoked, logging an error on non-zero exit. -/
def cloneStep (env : Env) (region target repo : String) (fs : FS) :
    FS × List Event :=
  let url := cloneUrl region repo
  let dest := destPath target repo
  if fs.pathExists dest && fs.dirNonempty dest then
    (fs, [Event.log (skipMsg repo) "info"])
  else
    match env.cloneError repo with
    | none =>
        (fs.cloneInto dest,
         [Event.log (cloningMsg region repo) "info", Event.cloneCall url dest])
    | some stderr =>
        (fs,
         [Event.log (cloningMsg region repo) "info", Event.cloneCall url dest,
          Event.log (cloneErrMsg repo stderr) "error"])

/-- One full loop iteration (src lines 109–128): skip-or-clone, then time
accounting, counter increment, and the optional progress callback.
`total_to_process`, `total_processed` and `get_name` of the base class are
modelled from the spec as the `total_items` / `processed_items` counters and
the task name. -/
def processRepo (env : Env) (region target : String) (i : Nat) (repo : String)
    (st : DSState) (fs : FS) : DSState × FS × List Event :=
  let cs := cloneStep env region target repo fs
  let st1 : DSState :=
    { st with
      total_processing_time := st.total_processing_time + env.stepTime i
      processed_items := st.processed_items + 1 }
  let evs2 : List Event :=
    if env.hasCallback then
      [Event.progressCall env.taskName st1.total_items st1.processed_items
        (estimated_remaining_time st1)]
    else []
  (st1, cs.1, cs.2 ++ evs2)

/-- The `for repo in repos` loop of `fetch`, with the step index made
explicit for the timing oracle. -/
def fetchLoop (env : Env) (region target : String) :
    List String → Nat → DSState → FS → DSState × FS × List Event
  | [], _, st, fs => (st, fs, [])
  | repo :: rest, i, st, fs =>
      let o1 := processRepo env region target i repo st fs
      let o2 := fetchLoop env region target rest (i + 1) o1.1 o1.2.1
      (o2.1, o2.2.1, o1.2.2 ++ o2.2.2)

/-- The part of `fetch` after the directory-creation check (src lines
104–130): set `_total_items`, run the loop, set `_fetch_completed`. -/
def fetchBody (p : Params) (env : Env) (st : DSState) (fs : FS)
    (setupEvs : List Event) : DSState × FS × List Event :=
  let st0 : DSState := { st with total_items := env.repos.length }
  let o := fetchLoop env p.region p.target_directory env.repos 0 st0 fs
  ({ o.1 with fetch_completed := true }, o.2.1,
    setupEvs ++ Event.log (foundMsg env.repos.length) "info"
      :: o.2.2 ++ [Event.log doneMsg "info"])

/-- Embedding of `SubjectiveByBitP2PDataSource.fetch` (src lines 92–130).
A raised `os.makedirs` exception propagates as `Except.error`; otherwise the
run returns the final counters, the final filesystem view, and the trace of
observable effects. -/
def fetch (p : Params) (env : Env) (st : DSState) (fs : FS) :
    Except String (DSState × FS × List Event) :=
  let region := p.region
  let target_directory := p.target_directory
  let _access_key := p.access_key
  let _secret_key := p.secret_key
  let ev0 := Event.log (startMsg region target_directory) "info"
  if fs.pathExists target_directory then
    Except.ok (fetchBody p env st fs [ev0])
  else
    match env.makedirsError with
    | some e => Except.error e
    | none =>
        Except.ok (fetchBody p env st (fs.makedirs target_directory)
          [ev0, Event.makedirsCall target_directory,
           Event.log (createdMsg target_directory) "info"])

/-- The dummy `_get_repositories` of the source (src lines 132–134); it
ignores the task parameters. -/
def getRepositories (_p : Params) : List String :=
  ["Repo1", "Repo2", "Repo3"]

/-- Clone invocations recorded in a trace. -/
def cloneCount (evs : List Event) : Nat :=
  (evs.filter (fun e => match e with
    | .cloneCall _ _ => true
    | _ => false)).length

/-- Progress-callback invocations recorded in a trace, keeping the
task-name, total and processed arguments. -/
def progressEvents (evs : List Event) : List (String × Nat × Nat) :=
  evs.filterMap (fun e => match e with
    | .progressCall n t c _ => some (n, t, c)
    | _ => none)

/-- The filesystem after the directory-creation check of `fetch`
(src lines 100–102), when that check does not raise. -/
def setupFS (p : Params) (fs : FS) : FS :=
  if fs.pathExists p.target_directory then fs else fs.makedirs p.target_directory

/-- The events emitted before the loop, when setup does not raise. -/
def setupEvents (p : Params) (fs : FS) : List Event :=
  if fs.pathExists p.target_directory then
    [Event.log (startMsg p.region p.target_directory) "info"]
  else
    [Event.log (startMsg p.region p.target_directory) "info",
     Event.makedirsCall p.target_directory,
     Event.log (createdMsg p.target_directory) "info"]

/-- The counters and filesystem just before loop iteration `i` of a run of
`fetch` that passed setup: the loop ran over the first `i` identifiers. -/
def runAt (p : Params) (env : Env) (st0 : DSState) (fs0 : FS) (i : Nat) :
    DSState × FS × List Event :=
  fetchLoop env p.region p.target_directory (env.repos.take i) 0
    { st0 with total_items := env.repos.length } (setupFS p fs0)

/-- The events emitted by loop iteration `i` of such a run. -/
def stepEvents (p : Params) (env : Env) (st0 : DSState) (fs0 : FS) (i : Nat) :
    List Event :=
  (processRepo env p.region p.target_directory i (env.repos.getD i "")
    (runAt p env st0 fs0 i).1 (runAt p env st0 fs0 i).2.1).2.2

/-- Whether loop iteration `i` reaches the clone branch: the destination
does not exist non-empty when the identifier is processed. -/
def attemptedAt (p : Params) (env : Env) (st0 : DSState) (fs0 : FS) (i : Nat) :
    Bool :=
  let fs := (runAt p env st0 fs0 i).2.1
  let dest := destPath p.target_directory (env.repos.getD i "")
  !(fs.pathExists dest && fs.dirNonempty dest)

/-- `fs'` sees every path that `fs` sees. -/
def FS.Incl (fs fs' : FS) : Prop :=
  (∀ q, fs.pathExists q = true → fs'.pathExists q = true) ∧
  (∀ q, fs.dirNonempty q = true → fs'.dirNonempty q = true)

/-- `k` successive calls of `fetch` on the same instance, threading the
counters and the filesystem; `none` if some call raises. -/
def fetchIter (p : Params) (env : Env) : Nat → DSState × FS → Option (DSState × FS)
  | 0, sf => some sf
  | k + 1, sf =>
      match fetch p env sf.1 sf.2 with
      | Except.ok out => fetchIter p env k (out.1, out.2.1)
      | Except.error _ => none

/-! ### Concrete instances for witnesses and counterexamples -/

def pA : Params :=
  { region := "us-east-1"
    target_directory := "repos"
    access_key := "AK"
    secret_key := "SK" }

/-- Environment with one failing and one succeeding clone. -/
def envA : Env :=
  { repos := ["Repo1", "Repo2"]
    cloneError := fun rp => if rp = "Repo1" then some "boom" else none
    makedirsError := none
    stepTime := fun _ => 1
    hasCallback := true
    taskName := "sync" }

def fsA : FS := { existing := [], populated := [] }

def outA : DSState × FS × List Event :=
  match fetch pA envA initState fsA with
  | Except.ok o => o
  | Except.error _ => (initState, fsA, [])

/-- Environment whose single clone always fails. -/
def envB : Env :=
  { repos := ["Repo1"]
    cloneError := fun _ => some "fatal: unable to access remote"
    makedirsError := none
    stepTime := fun _ => 1
    hasCallback := false
    taskName := "sync" }

def outB1 : DSState × FS × List Event :=
  match fetch pA envB initState fsA with
  | Except.ok o => o
  | Except.error _ => (initState, fsA, [])

def outB2 : DSState × FS × List Event :=
  match fetch pA envB outB1.1 outB1.2.1 with
  | Except.ok o => o
  | Except.error _ => (initState, fsA, [])

/-- Environment where every clone succeeds. -/
def envC : Env :=
  { repos := ["Repo1", "Repo2"]
    cloneError := fun _ => none
    makedirsError := none
    stepTime := fun _ => 1
    hasCallback := false
    taskName := "sync" }

def outC1 : DSState × FS × List Event :=
  match fetch pA envC initState fsA with
  | Except.ok o => o
  | Except.error _ => (initState, fsA, [])

def outC2 : DSState × FS × List Event :=
  match fetch pA envC outC1.1 outC1.2.1 with
  | Except.ok o => o
  | Except.error _ => (initState, fsA, [])

/-- A filesystem where the target directory already exists. -/
def fsD : FS := { existing := ["repos"], populated := [] }

def outD : DSState × FS × List Event :=
  match fetch pA envA initState fsD with
  | Except.ok o => o
  | Except.error _ => (initState, fsD, [])

/-- Environment where `os.makedirs` raises. -/
def envE : Env :=
  { envA with makedirsError := some "Permission denied" }

/-- Target directory and the first repository destination already present
and non-empty — the worked example of the spec. -/
def fsG : FS :=
  { existing := ["repos", "repos/Repo1"], populated := ["repos/Repo1"] }

def outG : DSState × FS × List Event :=
  match fetch pA envC initState fsG with
  | Except.ok o => o
  | Except.error _ => (initState, fsG, [])

/-- Environment whose repository listing is empty. -/
def envF : Env :=
  { envA with repos := [] }

def respOk : HttpResponse :=
  HttpResponse.success { retCode := some 0, retMsg := none, items := ["offer1", "offer2"] }

def respBad : HttpResponse :=
  HttpResponse.success { retCode := some 10001, retMsg := some "param error", items := ["stale"] }

/-! ### Basic lemmas -/

theorem FS.pathExists_iff (fs : FS) (p : String) :
    fs.pathExists p = true ↔ p ∈ fs.existing := by
  simp [FS.pathExists, List.elem_iff]

theorem FS.dirNonempty_iff (fs : FS) (p : String) :
    fs.dirNonempty p = true ↔ p ∈ fs.populated := by
  simp [FS.dirNonempty, List.elem_iff]

theorem fetchLoop_nil (env : Env) (r t : String) (i : Nat) (st : DSState)
    (fs : FS) : fetchLoop env r t [] i st fs = (st, fs, []) := rfl

theorem fetchLoop_cons (env : Env) (r t repo : String) (rest : List String)
    (i : Nat) (st : DSState) (fs : FS) :
    fetchLoop env r t (repo :: rest) i st fs =
      ((fetchLoop env r t rest (i + 1) (processRepo env r t i repo st fs).1
          (processRepo env r t i repo st fs).2.1).1,
       (fetchLoop env r t rest (i + 1) (processRepo env r t i repo st fs).1
          (processRepo env r t i repo st fs).2.1).2.1,
       (processRepo env r t i repo st fs).2.2 ++
         (fetchLoop env r t rest (i + 1) (processRepo env r t i repo st fs).1
            (processRepo env r t i repo st fs).2.1).2.2) := rfl

theorem processRepo_st (env : Env) (r t : String) (i : Nat) (repo : String)
    (st : DSState) (fs : FS) :
    (processRepo env r t i repo st fs).1 =
      { st with
        total_processing_time := st.total_processing_time + env.stepTime i
        processed_items := st.processed_items + 1 } := rfl

theorem processRepo_fs (env : Env) (r t : String) (i : Nat) (repo : String)
    (st : DSState) (fs : FS) :
    (processRepo env r t i repo st fs).2.1 = (cloneStep env r t repo fs).1 := rfl

theorem processRepo_evs (env : Env) (r t : String) (i : Nat) (repo : String)
    (st : DSState) (fs : FS) :
    (processRepo env r t i repo st fs).2.2 =
      (cloneStep env r t repo fs).2 ++
        (if env.hasCallback then
          [Event.progressCall env.taskName st.total_items (st.processed_items + 1)
            (estimated_remaining_time
              { st with
                total_processing_time := st.total_processing_time + env.stepTime i
                processed_items := st.processed_items + 1 })]
         else []) := rfl

theorem fetchLoop_processed_items (env : Env) (r t : String)
    (repos : List String) :
    ∀ (i : Nat) (st : DSState) (fs : FS),
      (fetchLoop env r t repos i st fs).1.processed_items =
        st.processed_items + repos.length := by
  induction repos with
  | nil => intro i st fs; simp [fetchLoop_nil]
  | cons repo rest ih =>
      intro i st fs
      rw [fetchLoop_cons]
      simp only [ih, processRepo_st, List.length_cons]
      omega

theorem fetchLoop_total_items (env : Env) (r t : String)
    (repos : List String) :
    ∀ (i : Nat) (st : DSState) (fs : FS),
      (fetchLoop env r t repos i st fs).1.total_items = st.total_items := by
  induction repos with
  | nil => intro i st fs; simp [fetchLoop_nil]
  | cons repo rest ih =>
      intro i st fs
      rw [fetchLoop_cons]
      simp only [ih, processRepo_st]

theorem fetchLoop_completed (env : Env) (r t : String)
    (repos : List String) :
    ∀ (i : Nat) (st : DSState) (fs : FS),
      (fetchLoop env r t repos i st fs).1.fetch_completed = st.fetch_completed := by
  induction repos with
  | nil => intro i st fs; simp [fetchLoop_nil]
  | cons repo rest ih =>
      intro i st fs
      rw [fetchLoop_cons]
      simp only [ih, processRepo_st]

theorem fetchLoop_append (env : Env) (r t : String) (l1 l2 : List String) :
    ∀ (i : Nat) (st : DSState) (fs : FS),
      fetchLoop env r t (l1 ++ l2) i st fs =
        ((fetchLoop env r t l2 (i + l1.length)
            (fetchLoop env r t l1 i st fs).1 (fetchLoop env r t l1 i st fs).2.1).1,
         (fetchLoop env r t l2 (i + l1.length)
            (fetchLoop env r t l1 i st fs).1 (fetchLoop env r t l1 i st fs).2.1).2.1,
         (fetchLoop env r t l1 i st fs).2.2 ++
           (fetchLoop env r t l2 (i + l1.length)
              (fetchLoop env r t l1 i st fs).1
              (fetchLoop env r t l1 i st fs).2.1).2.2) := by
  induction l1 with
  | nil => intro i st fs; simp [fetchLoop_nil]
  | cons repo rest ih =>
      intro i st fs
      rw [List.cons_append, fetchLoop_cons, ih, fetchLoop_cons]
      simp only [List.length_cons, List.append_assoc]
      rw [Nat.add_assoc i 1 rest.length, Nat.add_comm 1 rest.length]

/-! ### Filesystem monotonicity: a run only ever adds paths -/

theorem FS.Incl.refl (fs : FS) : FS.Incl fs fs :=
  ⟨fun _ h => h, fun _ h => h⟩

theorem FS.Incl.trans {fs1 fs2 fs3 : FS} (h12 : FS.Incl fs1 fs2)
    (h23 : FS.Incl fs2 fs3) : FS.Incl fs1 fs3 :=
  ⟨fun q h => h23.1 q (h12.1 q h), fun q h => h23.2 q (h12.2 q h)⟩

theorem FS.cloneInto_incl (fs : FS) (dest : String) :
    FS.Incl fs (fs.cloneInto dest) := by
  constructor
  · intro q h
    rw [FS.pathExists_iff] at h ⊢
    exact List.mem_cons_of_mem _ h
  · intro q h
    rw [FS.dirNonempty_iff] at h ⊢
    exact List.mem_cons_of_mem _ h

theorem FS.makedirs_incl (fs : FS) (p : String) :
    FS.Incl fs (fs.makedirs p) := by
  constructor
  · intro q h
    rw [FS.pathExists_iff] at h ⊢
    exact List.mem_append_right _ h
  · intro q h
    exact h

/-- Skip branch of the loop body (src lines 114–115). -/
theorem cloneStep_skip (env : Env) (r t repo : String) (fs : FS)
    (hcond : (fs.pathExists (destPath t repo) && fs.dirNonempty (destPath t repo)) = true) :
    cloneStep env r t repo fs = (fs, [Event.log (skipMsg repo) "info"]) := by
  simp [cloneStep, hcond]

/-- Successful-clone branch of the loop body (src lines 117–120). -/
theorem cloneStep_ok (env : Env) (r t repo : String) (fs : FS)
    (hcond : ¬ (fs.pathExists (destPath t repo) && fs.dirNonempty (destPath t repo)) = true)
    (hclone : env.cloneError repo = none) :
    cloneStep env r t repo fs =
      (fs.cloneInto (destPath t repo),
       [Event.log (cloningMsg r repo) "info",
        Event.cloneCall (cloneUrl r repo) (destPath t repo)]) := by
  simp [cloneStep, hcond, hclone]

/-- Failed-clone branch of the loop body (src lines 121–122). -/
theorem cloneStep_fail (env : Env) (r t repo : String) (fs : FS)
    (stderr : String)
    (hcond : ¬ (fs.pathExists (destPath t repo) && fs.dirNonempty (destPath t repo)) = true)
    (hclone : env.cloneError repo = some stderr) :
    cloneStep env r t repo fs =
      (fs,
       [Event.log (cloningMsg r repo) "info",
        Event.cloneCall (cloneUrl r repo) (destPath t repo),
        Event.log (cloneErrMsg repo stderr) "error"]) := by
  simp [cloneStep, hcond, hclone]

theorem cloneStep_fs_cases (env : Env) (r t repo : String) (fs : FS) :
    (cloneStep env r t repo fs).1 = fs ∨
    (cloneStep env r t repo fs).1 = fs.cloneInto (destPath t repo) := by
  by_cases hcond :
    (fs.pathExists (destPath t repo) && fs.dirNonempty (destPath t repo)) = true
  · rw [cloneStep_skip env r t repo fs hcond]
    exact Or.inl rfl
  · cases hclone : env.cloneError repo
    · rw [cloneStep_ok env r t repo fs hcond hclone]
      exact Or.inr rfl
    · rw [cloneStep_fail env r t repo fs _ hcond hclone]
      exact Or.inl rfl

theorem cloneStep_incl (env : Env) (r t repo : String) (fs : FS) :
    FS.Incl fs (cloneStep env r t repo fs).1 := by
  rcases cloneStep_fs_cases env r t repo fs with h | h <;> rw [h]
  · exact FS.Incl.refl fs
  · exact FS.cloneInto_incl fs _

theorem fetchLoop_incl (env : Env) (r t : String) (repos : List String) :
    ∀ (i : Nat) (st : DSState) (fs : FS),
      FS.Incl fs (fetchLoop env r t repos i st fs).2.1 := by
  induction repos with
  | nil => intro i st fs; rw [fetchLoop_nil]; exact FS.Incl.refl fs
  | cons repo rest ih =>
      intro i st fs
      rw [fetchLoop_cons]
      exact FS.Incl.trans (by rw [processRepo_fs]; exact cloneStep_incl env r t repo fs)
        (ih (i + 1) _ _)

theorem setupFS_incl (p : Params) (fs : FS) : FS.Incl fs (setupFS p fs) := by
  unfold setupFS
  split
  · exact FS.Incl.refl fs
  · exact FS.makedirs_incl fs _

/-- After a run in which every clone attempt exits 0, every listed
repository's destination exists and is non-empty. -/
theorem fetchLoop_populates (env : Env) (r t : String) (repos : List String) :
    ∀ (i : Nat) (st : DSState) (fs : FS),
      (∀ rp ∈ repos, env.cloneError rp = none) →
      ∀ rp ∈ repos,
        ((fetchLoop env r t repos i st fs).2.1).pathExists (destPath t rp) = true ∧
        ((fetchLoop env r t repos i st fs).2.1).dirNonempty (destPath t rp) = true := by
  induction repos with
  | nil => intro i st fs _ rp hrp; cases hrp
  | cons repo rest ih =>
      intro i st fs hok rp hrp
      rw [fetchLoop_cons]
      rcases List.mem_cons.mp hrp with hrp | hrp
      · subst hrp
        have hstep : ((processRepo env r t i rp st fs).2.1).pathExists (destPath t rp) = true ∧
            ((processRepo env r t i rp st fs).2.1).dirNonempty (destPath t rp) = true := by
          rw [processRepo_fs]
          by_cases hcond :
            (fs.pathExists (destPath t rp) && fs.dirNonempty (destPath t rp)) = true
          · rw [cloneStep_skip env r t rp fs hcond]
            simpa [Bool.and_eq_true] using hcond
          · have hnone : env.cloneError rp = none := hok rp (List.mem_cons_self rp rest)
            rw [cloneStep_ok env r t rp fs hcond hnone]
            constructor
            · rw [FS.pathExists_iff]; exact List.mem_cons_self _ _
            · rw [FS.dirNonempty_iff]; exact List.mem_cons_self _ _
        have hincl := fetchLoop_incl env r t rest (i + 1)
          (processRepo env r t i rp st fs).1 (processRepo env r t i rp st fs).2.1
        exact ⟨hincl.1 _ hstep.1, hincl.2 _ hstep.2⟩
      · exact ih (i + 1) _ _ (fun q hq => hok q (List.mem_cons_of_mem repo hq)) rp hrp

theorem cloneCount_append (a b : List Event) :
    cloneCount (a ++ b) = cloneCount a + cloneCount b := by
  simp [cloneCount, List.filter_append]

theorem cloneCount_clone (u d : String) (evs : List Event) :
    cloneCount (Event.cloneCall u d :: evs) = cloneCount evs + 1 := by
  simp [cloneCount, List.filter_cons]

/-- If every listed repository's destination already exists non-empty, the
loop performs no clone invocation. -/
theorem fetchLoop_all_skipped (env : Env) (r t : String) (repos : List String) :
    ∀ (i : Nat) (st : DSState) (fs : FS),
      (∀ rp ∈ repos, fs.pathExists (destPath t rp) = true ∧
        fs.dirNonempty (destPath t rp) = true) →
      cloneCount (fetchLoop env r t repos i st fs).2.2 = 0 := by
  induction repos with
  | nil => intro i st fs _; rw [fetchLoop_nil]; rfl
  | cons repo rest ih =>
      intro i st fs hall
      rw [fetchLoop_cons]
      have hrepo := hall repo (List.mem_cons_self repo rest)
      have hcond :
          (fs.pathExists (destPath t repo) && fs.dirNonempty (destPath t repo)) = true := by
        rw [hrepo.1, hrepo.2]; rfl
      have hstepfs : (processRepo env r t i repo st fs).2.1 = fs := by
        rw [processRepo_fs, cloneStep_skip env r t repo fs hcond]
      have hstepevs : cloneCount (processRepo env r t i repo st fs).2.2 = 0 := by
        rw [processRepo_evs, cloneCount_append, cloneStep_skip env r t repo fs hcond]
        have h2 : cloneCount (fs, [Event.log (skipMsg repo) "info"]).2 = 0 := rfl
        rw [h2]
        split <;> rfl
      rw [cloneCount_append, hstepevs, hstepfs,
        ih (i + 1) _ fs (fun rp h => hall rp (List.mem_cons_of_mem repo h))]

/-! ### Trace lemmas -/

theorem cloneStep_no_mkdir (env : Env) (r t repo : String) (fs : FS)
    (q : String) : Event.makedirsCall q ∉ (cloneStep env r t repo fs).2 := by
  by_cases hcond :
    (fs.pathExists (destPath t repo) && fs.dirNonempty (destPath t repo)) = true
  · rw [cloneStep_skip env r t repo fs hcond]; simp
  · cases hclone : env.cloneError repo
    · rw [cloneStep_ok env r t repo fs hcond hclone]; simp
    · rw [cloneStep_fail env r t repo fs _ hcond hclone]; simp

theorem processRepo_no_mkdir (env : Env) (r t : String) (i : Nat)
    (repo : String) (st : DSState) (fs : FS) (q : String) :
    Event.makedirsCall q ∉ (processRepo env r t i repo st fs).2.2 := by
  rw [processRepo_evs]
  intro hmem
  rcases List.mem_append.mp hmem with h | h
  · exact cloneStep_no_mkdir env r t repo fs q h
  · revert h
    split <;> simp

theorem fetchLoop_no_mkdir (env : Env) (r t : String) (repos : List String) :
    ∀ (i : Nat) (st : DSState) (fs : FS) (q : String),
      Event.makedirsCall q ∉ (fetchLoop env r t repos i st fs).2.2 := by
  induction repos with
  | nil => intro i st fs q; rw [fetchLoop_nil]; simp
  | cons repo rest ih =>
      intro i st fs q
      rw [fetchLoop_cons]
      intro hmem
      rcases List.mem_append.mp hmem with h | h
      · exact processRepo_no_mkdir env r t i repo st fs q h
      · exact ih (i + 1) _ _ q h

theorem cloneStep_head_log (env : Env) (r t repo : String) (fs : FS) :
    Event.log (skipMsg repo) "info" ∈ (cloneStep env r t repo fs).2 ∨
    Event.log (cloningMsg r repo) "info" ∈ (cloneStep env r t repo fs).2 := by
  by_cases hcond :
    (fs.pathExists (destPath t repo) && fs.dirNonempty (destPath t repo)) = true
  · rw [cloneStep_skip env r t repo fs hcond]; left; simp
  · cases hclone : env.cloneError repo
    · rw [cloneStep_ok env r t repo fs hcond hclone]; right; simp
    · rw [cloneStep_fail env r t repo fs _ hcond hclone]; right; simp

/-- Every listed identifier is attempted: its iteration logs either the
skip message or the cloning message. -/
theorem fetchLoop_item_logged (env : Env) (r t : String)
    (repos : List String) :
    ∀ (i : Nat) (st : DSState) (fs : FS), ∀ rp ∈ repos,
      Event.log (skipMsg rp) "info" ∈ (fetchLoop env r t repos i st fs).2.2 ∨
      Event.log (cloningMsg r rp) "info" ∈ (fetchLoop env r t repos i st fs).2.2 := by
  induction repos with
  | nil => intro i st fs rp hrp; cases hrp
  | cons repo rest ih =>
      intro i st fs rp hrp
      rw [fetchLoop_cons]
      rcases List.mem_cons.mp hrp with hrp | hrp
      · subst hrp
        rcases cloneStep_head_log env r t rp fs with h | h
        · left
          apply List.mem_append_left
          rw [processRepo_evs]
          exact List.mem_append_left _ h
        · right
          apply List.mem_append_left
          rw [processRepo_evs]
          exact List.mem_append_left _ h
      · rcases ih (i + 1) (processRepo env r t i repo st fs).1
          (processRepo env r t i repo st fs).2.1 rp hrp with h | h
        · exact Or.inl (List.mem_append_right _ h)
        · exact Or.inr (List.mem_append_right _ h)

theorem progressEvents_append (a b : List Event) :
    progressEvents (a ++ b) = progressEvents a ++ progressEvents b := by
  simp [progressEvents, List.filterMap_append]

theorem progressEvents_single (n : String) (tt pc : Nat) (est : ℚ) :
    progressEvents [Event.progressCall n tt pc est] = [(n, tt, pc)] := rfl

theorem progressEvents_cloneStep (env : Env) (r t repo : String) (fs : FS) :
    progressEvents (cloneStep env r t repo fs).2 = [] := by
  by_cases hcond :
    (fs.pathExists (destPath t repo) && fs.dirNonempty (destPath t repo)) = true
  · rw [cloneStep_skip env r t repo fs hcond]; rfl
  · cases hclone : env.cloneError repo
    · rw [cloneStep_ok env r t repo fs hcond hclone]; rfl
    · rw [cloneStep_fail env r t repo fs _ hcond hclone]; rfl

/-- With a registered callback, the loop reports exactly one progress tuple
per item, the processed count rising by one each time while the total stays
fixed. -/
theorem fetchLoop_progress (env : Env) (r t : String)
    (hcb : env.hasCallback = true) (repos : List String) :
    ∀ (i : Nat) (st : DSState) (fs : FS),
      progressEvents (fetchLoop env r t repos i st fs).2.2 =
        (List.range repos.length).map
          (fun j => (env.taskName, st.total_items, st.processed_items + (j + 1))) := by
  induction repos with
  | nil => intro i st fs; rw [fetchLoop_nil]; rfl
  | cons repo rest ih =>
      intro i st fs
      rw [fetchLoop_cons, progressEvents_append, processRepo_evs,
        progressEvents_append, progressEvents_cloneStep, hcb]
      rw [ih (i + 1) (processRepo env r t i repo st fs).1
        (processRepo env r t i repo st fs).2.1]
      simp only [processRepo_st, if_true, List.length_cons,
        List.range_succ_eq_map, List.map_cons, List.map_map, List.nil_append]
      rw [progressEvents_single, List.singleton_append]
      refine List.cons_eq_cons.mpr ⟨rfl, ?_⟩
      refine List.map_congr_left (fun j hj => ?_)
      simp only [Function.comp_apply, Prod.mk.injEq]
      refine ⟨trivial, trivial, ?_⟩
      omega

/-! ### Unfolding `fetch` -/

theorem fetch_ok_intro (p : Params) (env : Env) (st : DSState) (fs : FS)
    (hsetup : fs.pathExists p.target_directory = true ∨ env.makedirsError = none) :
    fetch p env st fs =
      Except.ok (fetchBody p env st (setupFS p fs) (setupEvents p fs)) := by
  by_cases hex : fs.pathExists p.target_directory = true
  · simp [fetch, setupFS, setupEvents, hex]
  · have hmk : env.makedirsError = none := by tauto
    simp [fetch, setupFS, setupEvents, hex, hmk]

theorem fetch_setup_error (p : Params) (env : Env) (st : DSState) (fs : FS)
    (e : String) (hex : ¬ fs.pathExists p.target_directory = true)
    (hmk : env.makedirsError = some e) :
    fetch p env st fs = Except.error e := by
  simp [fetch, hex, hmk]

theorem fetch_ok_elim (p : Params) (env : Env) (st : DSState) (fs : FS)
    (out : DSState × FS × List Event)
    (h : fetch p env st fs = Except.ok out) :
    out = fetchBody p env st (setupFS p fs) (setupEvents p fs) ∧
    (fs.pathExists p.target_directory = true ∨ env.makedirsError = none) := by
  by_cases hex : fs.pathExists p.target_directory = true
  · rw [fetch_ok_intro p env st fs (Or.inl hex)] at h
    exact ⟨(Except.ok.inj h).symm, Or.inl hex⟩
  · cases hmk : env.makedirsError with
    | none =>
        rw [fetch_ok_intro p env st fs (Or.inr hmk)] at h
        exact ⟨(Except.ok.inj h).symm, Or.inr rfl⟩
    | some e =>
        rw [fetch_setup_error p env st fs e hex hmk] at h
        cases h

theorem fetchBody_processed (p : Params) (env : Env) (st : DSState) (fs : FS)
    (evs : List Event) :
    (fetchBody p env st fs evs).1.processed_items =
      st.processed_items + env.repos.length := by
  show (fetchLoop env p.region p.target_directory env.repos 0
      { st with total_items := env.repos.length } fs).1.processed_items = _
  rw [fetchLoop_processed_items]

theorem fetchBody_total (p : Params) (env : Env) (st : DSState) (fs : FS)
    (evs : List Event) :
    (fetchBody p env st fs evs).1.total_items = env.repos.length := by
  show (fetchLoop env p.region p.target_directory env.repos 0
      { st with total_items := env.repos.length } fs).1.total_items = _
  rw [fetchLoop_total_items]

theorem fetchBody_completed (p : Params) (env : Env) (st : DSState) (fs : FS)
    (evs : List Event) :
    (fetchBody p env st fs evs).1.fetch_completed = true := rfl

theorem fetchBody_fs (p : Params) (env : Env) (st : DSState) (fs : FS)
    (evs : List Event) :
    (fetchBody p env st fs evs).2.1 =
      (fetchLoop env p.region p.target_directory env.repos 0
        { st with total_items := env.repos.length } fs).2.1 := rfl

theorem fetchBody_evs (p : Params) (env : Env) (st : DSState) (fs : FS)
    (evs : List Event) :
    (fetchBody p env st fs evs).2.2 =
      evs ++ Event.log (foundMsg env.repos.length) "info"
        :: (fetchLoop env p.region p.target_directory env.repos 0
            { st with total_items := env.repos.length } fs).2.2
          ++ [Event.log doneMsg "info"] := rfl

theorem cloneCount_nil : cloneCount [] = 0 := rfl

theorem cloneCount_log (m lvl : String) (evs : List Event) :
    cloneCount (Event.log m lvl :: evs) = cloneCount evs := rfl

theorem cloneCount_setupEvents (p : Params) (fs : FS) :
    cloneCount (setupEvents p fs) = 0 := by
  unfold setupEvents
  split <;> rfl

/-- The clone invocations of a run are exactly those of its loop. -/
theorem cloneCount_fetchBody (p : Params) (env : Env) (st : DSState) (fs : FS)
    (evs : List Event) :
    cloneCount (fetchBody p env st fs evs).2.2 =
      cloneCount evs +
        cloneCount (fetchLoop env p.region p.target_directory env.repos 0
          { st with total_items := env.repos.length } fs).2.2 := by
  rw [fetchBody_evs, cloneCount_append, cloneCount_log, cloneCount_append]
  rfl

theorem progressEvents_log (m lvl : String) (evs : List Event) :
    progressEvents (Event.log m lvl :: evs) = progressEvents evs := rfl

theorem progressEvents_setupEvents (p : Params) (fs : FS) :
    progressEvents (setupEvents p fs) = [] := by
  unfold setupEvents
  split <;> rfl

/-- Whenever setup cannot raise, `fetch` returns, adds the listing length to
the untouched `processed_items`, overwrites `total_items`, and completes. -/
theorem fetch_ok_counters (p : Params) (env : Env) (st : DSState) (fs : FS)
    (hmk : env.makedirsError = none) :
    ∃ out, fetch p env st fs = Except.ok out ∧
      out.1.processed_items = st.processed_items + env.repos.length ∧
      out.1.total_items = env.repos.length ∧
      out.1.fetch_completed = true :=
  ⟨fetchBody p env st (setupFS p fs) (setupEvents p fs),
    fetch_ok_intro p env st fs (Or.inr hmk),
    fetchBody_processed p env st (setupFS p fs) (setupEvents p fs),
    fetchBody_total p env st (setupFS p fs) (setupEvents p fs),
    fetchBody_completed p env st (setupFS p fs) (setupEvents p fs)⟩

/-- Counter evolution across `k` successive calls on the same instance. -/
theorem fetchIter_counters (p : Params) (env : Env)
    (hmk : env.makedirsError = none) :
    ∀ (k : Nat) (st : DSState) (fs : FS),
      ∃ st1 fs1, fetchIter p env k (st, fs) = some (st1, fs1) ∧
        st1.processed_items = st.processed_items + k * env.repos.length ∧
        (1 ≤ k → st1.total_items = env.repos.length ∧
          st1.fetch_completed = true) := by
  intro k
  induction k with
  | zero =>
      intro st fs
      refine ⟨st, fs, rfl, by simp, ?_⟩
      intro hk
      exact absurd hk (by omega)
  | succ k ih =>
      intro st fs
      obtain ⟨out, hfetch, hp, ht, hc⟩ := fetch_ok_counters p env st fs hmk
      obtain ⟨st1, fs1, hrun, hp1, hk1⟩ := ih out.1 out.2.1
      refine ⟨st1, fs1, ?_, ?_, ?_⟩
      · show (match fetch p env st fs with
          | Except.ok out => fetchIter p env k (out.1, out.2.1)
          | Except.error _ => none) = some (st1, fs1)
        rw [hfetch]
        exact hrun
      · rw [hp1, hp, Nat.succ_mul]
        ring
      · intro hk
        rcases Nat.eq_zero_or_pos k with hz | hpos
        · subst hz
          simp only [Nat.zero_mul, Nat.add_zero] at hp1
          have hst1 : st1 = out.1 := by
            have : fetchIter p env 0 (out.1, out.2.1) = some (out.1, out.2.1) := rfl
            rw [this] at hrun
            exact congrArg Prod.fst (Option.some.inj hrun) |>.symm ▸ rfl
          rw [hst1]
          exact ⟨ht, hc⟩
        · exact hk1 hpos

/-- Every event of loop iteration `i` occurs in the trace of the run. -/
theorem fetch_step_events_mem (p : Params) (env : Env) (st0 : DSState)
    (fs0 : FS) (out : DSState × FS × List Event) (i : Nat)
    (h : fetch p env st0 fs0 = Except.ok out) (hi : i < env.repos.length) :
    ∀ e, e ∈ stepEvents p env st0 fs0 i → e ∈ out.2.2 := by
  rcases fetch_ok_elim p env st0 fs0 out h with ⟨hout, -⟩
  subst hout
  rw [fetchBody_evs]
  intro e he
  have h1 : env.repos =
      env.repos.take i ++ (env.repos.getD i "") :: env.repos.drop (i + 1) := by
    rw [List.getD_eq_getElem _ _ hi, ← List.drop_eq_getElem_cons hi,
      List.take_append_drop]
  have hlen : (env.repos.take i).length = i := by
    rw [List.length_take]
    exact Nat.min_eq_left (Nat.le_of_lt hi)
  have hmem : e ∈ (fetchLoop env p.region p.target_directory env.repos 0
      { st0 with total_items := env.repos.length } (setupFS p fs0)).2.2 := by
    have h3 : fetchLoop env p.region p.target_directory env.repos 0
        { st0 with total_items := env.repos.length } (setupFS p fs0) =
        fetchLoop env p.region p.target_directory
          (env.repos.take i ++ (env.repos.getD i "") :: env.repos.drop (i + 1)) 0
          { st0 with total_items := env.repos.length } (setupFS p fs0) := by
      rw [← h1]
    rw [h3, fetchLoop_append, fetchLoop_cons]
    apply List.mem_append_right
    apply List.mem_append_left
    have hidx : 0 + (env.repos.take i).length = i := by rw [hlen]; omega
    rw [hidx]
    exact he
  simp only [List.mem_append, List.mem_cons]
  tauto

/-! ## Claim theorems -/

/-- C10: `get_bybit_p2p_opportunities` always returns a list and never
propagates a request exception: on a `RequestException` it returns `[]`,
on `ret_code == 0` it returns the response items, and on any other
`ret_code` it returns `[]`. -/
theorem opportunities_total_and_safe (resp : HttpResponse) :
    (∀ e, resp = HttpResponse.failure e →
      get_bybit_p2p_opportunities resp = []) ∧
    (∀ d, resp = HttpResponse.success d → d.retCode = some 0 →
      get_bybit_p2p_opportunities resp = d.items) ∧
    (∀ d, resp = HttpResponse.success d → ¬ d.retCode = some 0 →
      get_bybit_p2p_opportunities resp = []) := by
  refine ⟨?_, ?_, ?_⟩
  · intro e he
    subst he
    rfl
  · intro d hd h0
    subst hd
    simp [get_bybit_p2p_opportunities, h0]
  · intro d hd h0
    subst hd
    simp [get_bybit_p2p_opportunities, h0]

theorem opportunities_total_and_safe_witness :
    get_bybit_p2p_opportunities respOk = ["offer1", "offer2"] ∧
    get_bybit_p2p_opportunities respBad = [] ∧
    get_bybit_p2p_opportunities (HttpResponse.failure "timeout") = [] :=
  ⟨(opportunities_total_and_safe respOk).2.1 _ rfl rfl,
   (opportunities_total_and_safe respBad).2.2 _ rfl (by decide),
   (opportunities_total_and_safe (HttpResponse.failure "timeout")).1 _ rfl⟩

/-- C1: starting from a freshly constructed instance, whenever `fetch`
returns, `_processed_items` equals the number of listed identifiers and
`_fetch_completed` is true, regardless of individual clone outcomes. -/
theorem fetch_processed_and_completed (p : Params) (env : Env) (fs : FS)
    (out : DSState × FS × List Event)
    (h : fetch p env initState fs = Except.ok out) :
    out.1.processed_items = env.repos.length ∧
    out.1.fetch_completed = true := by
  rcases fetch_ok_elim p env initState fs out h with ⟨hout, -⟩
  subst hout
  constructor
  · rw [fetchBody_processed]
    simp [initState]
  · exact fetchBody_completed p env initState (setupFS p fs) (setupEvents p fs)

theorem fetch_processed_and_completed_witness :
    outA.1.processed_items = envA.repos.length ∧
    outA.1.fetch_completed = true :=
  fetch_processed_and_completed pA envA fsA outA rfl

/-- C6: with an empty repository listing, `fetch` sets `_total_items` to 0,
performs no clone invocation, and still completes the run. -/
theorem fetch_empty_listing (p : Params) (env : Env) (st : DSState) (fs : FS)
    (hrepos : env.repos = [])
    (hsetup : fs.pathExists p.target_directory = true ∨ env.makedirsError = none) :
    ∃ out, fetch p env st fs = Except.ok out ∧
      out.1.total_items = 0 ∧
      out.1.fetch_completed = true ∧
      cloneCount out.2.2 = 0 := by
  refine ⟨fetchBody p env st (setupFS p fs) (setupEvents p fs),
    fetch_ok_intro p env st fs hsetup, ?_,
    fetchBody_completed p env st (setupFS p fs) (setupEvents p fs), ?_⟩
  · rw [fetchBody_total, hrepos]
    rfl
  · rw [cloneCount_fetchBody, cloneCount_setupEvents, hrepos, fetchLoop_nil]
    rfl

theorem fetch_empty_listing_witness :
    ∃ out, fetch pA envF initState fsA = Except.ok out ∧
      out.1.total_items = 0 ∧
      out.1.fetch_completed = true ∧
      cloneCount out.2.2 = 0 :=
  fetch_empty_listing pA envF initState fsA rfl (Or.inr rfl)

/-- C8: `access_key` and `secret_key` have no influence on `fetch`: two runs
whose parameters differ only in the credentials produce the same repository
listing and the same full outcome (final counters, filesystem and trace,
hence the same clone URLs and clone/skip sequence). -/
theorem fetch_ignores_credentials (p : Params) (env : Env) (st : DSState)
    (fs : FS) (a b a2 b2 : String) :
    getRepositories { p with access_key := a, secret_key := b } =
      getRepositories { p with access_key := a2, secret_key := b2 } ∧
    fetch { p with access_key := a, secret_key := b } env st fs =
      fetch { p with access_key := a2, secret_key := b2 } env st fs :=
  ⟨rfl, rfl⟩

/-- C4: with a registered progress callback, a run from a fresh instance
invokes the callback exactly once per processed identifier, with the task
name, the total item count, and a processed count rising by exactly 1 on
each successive call. -/
theorem fetch_progress_callback (p : Params) (env : Env) (fs : FS)
    (out : DSState × FS × List Event)
    (hcb : env.hasCallback = true)
    (h : fetch p env initState fs = Except.ok out) :
    progressEvents out.2.2 =
      (List.range env.repos.length).map
        (fun j => (env.taskName, env.repos.length, j + 1)) := by
  rcases fetch_ok_elim p env initState fs out h with ⟨hout, -⟩
  subst hout
  rw [fetchBody_evs, progressEvents_append, progressEvents_append,
    progressEvents_setupEvents, progressEvents_log,
    fetchLoop_progress env p.region p.target_directory hcb env.repos 0]
  simp [initState, progressEvents]

theorem fetch_progress_callback_witness :
    progressEvents outA.2.2 =
      (List.range envA.repos.length).map
        (fun j => (envA.taskName, envA.repos.length, j + 1)) :=
  fetch_progress_callback pA envA fsA outA rfl rfl

/-- C7: if the target directory does not exist, `fetch` creates it with all
missing parent segments and logs the creation before any cloning begins; if
it exists, no directory creation occurs; a directory-creation failure
propagates to the caller unhandled. -/
theorem fetch_directory_setup (p : Params) (env : Env) (st : DSState)
    (fs : FS) :
    (fs.pathExists p.target_directory = false → env.makedirsError = none →
      ∃ out, fetch p env st fs = Except.ok out ∧
        (∃ rest, out.2.2 =
          Event.log (startMsg p.region p.target_directory) "info" ::
            Event.makedirsCall p.target_directory ::
            Event.log (createdMsg p.target_directory) "info" :: rest) ∧
        ∀ q ∈ pathAncestors p.target_directory,
          (setupFS p fs).pathExists q = true) ∧
    (fs.pathExists p.target_directory = true →
      ∃ out, fetch p env st fs = Except.ok out ∧
        ∀ q, Event.makedirsCall q ∉ out.2.2) ∧
    (fs.pathExists p.target_directory = false →
      ∀ e, env.makedirsError = some e →
        fetch p env st fs = Except.error e) := by
  refine ⟨?_, ?_, ?_⟩
  · intro hex hmk
    refine ⟨fetchBody p env st (setupFS p fs) (setupEvents p fs),
      fetch_ok_intro p env st fs (Or.inr hmk), ?_, ?_⟩
    · rw [fetchBody_evs]
      have hsetup : setupEvents p fs =
          [Event.log (startMsg p.region p.target_directory) "info",
           Event.makedirsCall p.target_directory,
           Event.log (createdMsg p.target_directory) "info"] := by
        unfold setupEvents
        rw [hex]
        simp
      rw [hsetup]
      refine ⟨Event.log (foundMsg env.repos.length) "info" ::
        ((fetchLoop env p.region p.target_directory env.repos 0
          { st with total_items := env.repos.length } (setupFS p fs)).2.2 ++
          [Event.log doneMsg "info"]), ?_⟩
      simp
    · intro q hq
      have hsfs : setupFS p fs = fs.makedirs p.target_directory := by
        unfold setupFS
        rw [hex]
        simp
      rw [hsfs, FS.pathExists_iff]
      show q ∈ pathAncestors p.target_directory ++ fs.existing
      exact List.mem_append_left _ hq
  · intro hex
    refine ⟨fetchBody p env st (setupFS p fs) (setupEvents p fs),
      fetch_ok_intro p env st fs (Or.inl hex), ?_⟩
    intro q
    rw [fetchBody_evs]
    have hsetup : setupEvents p fs =
        [Event.log (startMsg p.region p.target_directory) "info"] := by
      unfold setupEvents
      rw [hex]
      simp
    rw [hsetup]
    intro hmem
    have hloop := fetchLoop_no_mkdir env p.region p.target_directory env.repos
      0 { st with total_items := env.repos.length } (setupFS p fs) q
    simp only [List.mem_append, List.mem_cons, List.not_mem_nil,
      or_false] at hmem
    rcases hmem with (h | h | h) | h
    · cases h
    · cases h
    · exact hloop h
    · cases h

  · intro hex e hmk
    exact fetch_setup_error p env st fs e (by simp [hex]) hmk

theorem fetch_directory_setup_witness :
    (∃ out, fetch pA envA initState fsA = Except.ok out ∧
      (∃ rest, out.2.2 =
        Event.log (startMsg pA.region pA.target_directory) "info" ::
          Event.makedirsCall pA.target_directory ::
          Event.log (createdMsg pA.target_directory) "info" :: rest) ∧
      ∀ q ∈ pathAncestors pA.target_directory,
        (setupFS pA fsA).pathExists q = true) ∧
    (∃ out, fetch pA envA initState fsD = Except.ok out ∧
      ∀ q, Event.makedirsCall q ∉ out.2.2) ∧
    fetch pA envE initState fsA = Except.error "Permission denied" :=
  ⟨(fetch_directory_setup pA envA initState fsA).1 rfl rfl,
   (fetch_directory_setup pA envA initState fsD).2.1 rfl,
   (fetch_directory_setup pA envE initState fsA).2.2 rfl "Permission denied" rfl⟩

/-- C9: `fetch` never resets `_processed_items` on entry while
`_total_items` is overwritten each call: after `k` calls on the same
instance over the same listing of `N` identifiers, `_processed_items` is
`k * N` while `_total_items` is `N`. -/
theorem fetch_repeated_accumulates (p : Params) (env : Env) (fs0 : FS)
    (k : Nat) (hmk : env.makedirsError = none) (hk : 1 ≤ k) :
    ∃ st1 fs1, fetchIter p env k (initState, fs0) = some (st1, fs1) ∧
      st1.processed_items = k * env.repos.length ∧
      st1.total_items = env.repos.length := by
  obtain ⟨st1, fs1, hrun, hp, hges⟩ := fetchIter_counters p env hmk k initState fs0
  refine ⟨st1, fs1, hrun, ?_, (hges hk).1⟩
  rw [hp]
  simp [initState]

theorem fetch_repeated_accumulates_witness :
    ∃ st1 fs1, fetchIter pA envA 2 (initState, fsA) = some (st1, fs1) ∧
      st1.processed_items = 2 * envA.repos.length ∧
      st1.total_items = envA.repos.length :=
  fetch_repeated_accumulates pA envA fsA 2 rfl (by omega)

/-- C3: a clone failure for one identifier is logged at error level with
the captured stderr, does not abort the run (fetch still returns), and
every identifier in the listing — the subsequent ones included — is still
attempted (its skip or cloning log appears in the trace). -/
theorem fetch_clone_failure_isolated (p : Params) (env : Env) (st0 : DSState)
    (fs0 : FS) (i : Nat) (stderr : String)
    (hsetup : fs0.pathExists p.target_directory = true ∨ env.makedirsError = none)
    (hi : i < env.repos.length)
    (hfail : env.cloneError (env.repos.getD i "") = some stderr)
    (hatt : attemptedAt p env st0 fs0 i = true) :
    ∃ out, fetch p env st0 fs0 = Except.ok out ∧
      Event.log (cloneErrMsg (env.repos.getD i "") stderr) "error" ∈ out.2.2 ∧
      ∀ rp ∈ env.repos,
        Event.log (skipMsg rp) "info" ∈ out.2.2 ∨
        Event.log (cloningMsg p.region rp) "info" ∈ out.2.2 := by
  have hok := fetch_ok_intro p env st0 fs0 hsetup
  refine ⟨_, hok, ?_, ?_⟩
  · apply fetch_step_events_mem p env st0 fs0 _ i hok hi
    unfold attemptedAt at hatt
    simp only [Bool.not_eq_true'] at hatt
    have hcond : ¬ (((runAt p env st0 fs0 i).2.1).pathExists
        (destPath p.target_directory (env.repos.getD i "")) &&
        ((runAt p env st0 fs0 i).2.1).dirNonempty
          (destPath p.target_directory (env.repos.getD i ""))) = true := by
      rw [hatt]
      simp
    unfold stepEvents
    rw [processRepo_evs,
      cloneStep_fail env p.region p.target_directory (env.repos.getD i "")
        (runAt p env st0 fs0 i).2.1 stderr hcond hfail]
    simp
  · intro rp hrp
    rcases fetchLoop_item_logged env p.region p.target_directory env.repos 0
      { st0 with total_items := env.repos.length } (setupFS p fs0) rp hrp
      with hmem | hmem
    · left
      rw [fetchBody_evs]
      simp only [List.mem_append, List.mem_cons]
      tauto
    · right
      rw [fetchBody_evs]
      simp only [List.mem_append, List.mem_cons]
      tauto

theorem fetch_clone_failure_isolated_witness :
    ∃ out, fetch pA envA initState fsA = Except.ok out ∧
      Event.log (cloneErrMsg (envA.repos.getD 0 "") "boom") "error" ∈ out.2.2 ∧
      ∀ rp ∈ envA.repos,
        Event.log (skipMsg rp) "info" ∈ out.2.2 ∨
        Event.log (cloningMsg pA.region rp) "info" ∈ out.2.2 :=
  fetch_clone_failure_isolated pA envA initState fsA 0 "boom" (Or.inr rfl)
    (by decide) rfl rfl

/-- C5: every loop iteration computes the destination as
`target_directory / identifier`; if that destination exists non-empty the
iteration skips the clone and logs the skip, otherwise it invokes the clone
with the URL derived from `region` and the identifier. -/
theorem fetch_item_dichotomy (p : Params) (env : Env) (st0 : DSState)
    (fs0 : FS) (out : DSState × FS × List Event) (i : Nat)
    (h : fetch p env st0 fs0 = Except.ok out)
    (hi : i < env.repos.length) :
    (attemptedAt p env st0 fs0 i = false →
      Event.log (skipMsg (env.repos.getD i "")) "info" ∈ out.2.2 ∧
      cloneCount (stepEvents p env st0 fs0 i) = 0) ∧
    (attemptedAt p env st0 fs0 i = true →
      Event.cloneCall (cloneUrl p.region (env.repos.getD i ""))
        (destPath p.target_directory (env.repos.getD i "")) ∈ out.2.2) := by
  constructor
  · intro hatt
    unfold attemptedAt at hatt
    simp only [Bool.not_eq_false'] at hatt
    have hskip := cloneStep_skip env p.region p.target_directory
      (env.repos.getD i "") (runAt p env st0 fs0 i).2.1 hatt
    constructor
    · apply fetch_step_events_mem p env st0 fs0 out i h hi
      unfold stepEvents
      rw [processRepo_evs, hskip]
      simp
    · unfold stepEvents
      rw [processRepo_evs, hskip]
      show cloneCount ([Event.log (skipMsg (env.repos.getD i "")) "info"] ++ _) = 0
      rw [cloneCount_append]
      have h1 : cloneCount [Event.log (skipMsg (env.repos.getD i "")) "info"] = 0 := rfl
      rw [h1]
      split <;> rfl
  · intro hatt
    unfold attemptedAt at hatt
    simp only [Bool.not_eq_true'] at hatt
    have hcond : ¬ (((runAt p env st0 fs0 i).2.1).pathExists
        (destPath p.target_directory (env.repos.getD i "")) &&
        ((runAt p env st0 fs0 i).2.1).dirNonempty
          (destPath p.target_directory (env.repos.getD i ""))) = true := by
      rw [hatt]
      simp
    apply fetch_step_events_mem p env st0 fs0 out i h hi
    unfold stepEvents
    cases hclone : env.cloneError (env.repos.getD i "")
    · rw [processRepo_evs,
        cloneStep_ok env p.region p.target_directory (env.repos.getD i "")
          (runAt p env st0 fs0 i).2.1 hcond hclone]
      simp
    · rw [processRepo_evs,
        cloneStep_fail env p.region p.target_directory (env.repos.getD i "")
          (runAt p env st0 fs0 i).2.1 _ hcond hclone]
      simp

theorem fetch_item_dichotomy_witness :
    (Event.log (skipMsg (envC.repos.getD 0 "")) "info" ∈ outG.2.2 ∧
      cloneCount (stepEvents pA envC initState fsG 0) = 0) ∧
    Event.cloneCall (cloneUrl pA.region (envC.repos.getD 1 ""))
      (destPath pA.target_directory (envC.repos.getD 1 "")) ∈ outG.2.2 :=
  ⟨(fetch_item_dichotomy pA envC initState fsG outG 0 rfl (by decide)).1 rfl,
   (fetch_item_dichotomy pA envC initState fsG outG 1 rfl (by decide)).2 rfl⟩

/-- C2 as stated is false on the code: with a single listed repository
whose clone fails, the first run completes, yet the second run over the
same target directory performs another clone invocation (one, not zero). -/
theorem fetch_second_run_reclones_cex :
    outB1.1.fetch_completed = true ∧
    cloneCount outB1.2.2 = 1 ∧
    fetch pA envB outB1.1 outB1.2.1 = Except.ok outB2 ∧
    cloneCount outB2.2.2 = 1 :=
  ⟨rfl, rfl, rfl, rfl⟩

/-- C2 (amended): after a completed first run in which every clone attempt
exited successfully, a second `fetch` over the same target directory
performs zero clone invocations — every identifier whose destination exists
non-empty is skipped. -/
theorem fetch_second_run_no_clones (p : Params) (env : Env) (st0 : DSState)
    (fs0 : FS) (out1 out2 : DSState × FS × List Event)
    (hclone : ∀ rp ∈ env.repos, env.cloneError rp = none)
    (h1 : fetch p env st0 fs0 = Except.ok out1)
    (h2 : fetch p env out1.1 out1.2.1 = Except.ok out2) :
    cloneCount out2.2.2 = 0 := by
  rcases fetch_ok_elim p env st0 fs0 out1 h1 with ⟨hout1, -⟩
  rcases fetch_ok_elim p env out1.1 out1.2.1 out2 h2 with ⟨hout2, -⟩
  subst hout2
  rw [cloneCount_fetchBody, cloneCount_setupEvents]
  have hpop : ∀ rp ∈ env.repos,
      (out1.2.1).pathExists (destPath p.target_directory rp) = true ∧
      (out1.2.1).dirNonempty (destPath p.target_directory rp) = true := by
    have hfs1 : out1.2.1 =
        (fetchLoop env p.region p.target_directory env.repos 0
          { st0 with total_items := env.repos.length } (setupFS p fs0)).2.1 := by
      rw [hout1, fetchBody_fs]
    rw [hfs1]
    intro rp hrp
    exact fetchLoop_populates env p.region p.target_directory env.repos 0 _ _
      hclone rp hrp
  have hpop2 : ∀ rp ∈ env.repos,
      (setupFS p out1.2.1).pathExists (destPath p.target_directory rp) = true ∧
      (setupFS p out1.2.1).dirNonempty (destPath p.target_directory rp) = true := by
    intro rp hrp
    have hincl := setupFS_incl p out1.2.1
    exact ⟨hincl.1 _ (hpop rp hrp).1, hincl.2 _ (hpop rp hrp).2⟩
  rw [fetchLoop_all_skipped env p.region p.target_directory env.repos 0 _ _ hpop2]

theorem fetch_second_run_no_clones_witness :
    cloneCount outC2.2.2 = 0 :=
  fetch_second_run_no_clones pA envC initState fsA outC1 outC2
    (fun _ _ => rfl) rfl rfl

end ByBitP2P
